import Mathlib

/-!
Verification of the filter-and-aggregate query layer of the migration
dashboard (`streamlit_app.py`).

The embedding models the pandas pipeline over an in-memory table:

* a `Record` is one cleaned row of the CSV (columns `Origin`, `Destination`,
  `Value`); the numeric measure is modelled exactly as a rational number;
* a `RawRow` is one row as read by `read_csv`, where `none` stands for a
  missing cell (pandas `NaN`); the `Value` cell is already the result of
  `pd.to_numeric(errors := coerce)`, i.e. `none` also stands for a
  non-numeric cell;
* `pd.DataFrame.sort_values(by, ascending)` on a single key performs an
  ascending argsort and, for `ascending = False`, reverses the resulting
  indexer (pandas `nargsort`); the ascending argsort is modelled as a stable
  insertion sort, which is the behaviour numpy exhibits on small inputs;
* Python `int(x)` and `Series.astype(int)` truncate toward zero, modelled by
  truncating integer division on the rational `num/den`;
* `Series.astype(str)` renders a missing cell as the string "nan", and
  `Series.str.strip` trims whitespace from both ends;
* the script after loading is modelled as a function from the loaded table
  and the two widget inputs to `Except String Output`: the `Except.error`
  branch carries the user-visible message of `st.error` followed by
  `st.stop`, which suppresses every chart; the `Except.ok` branch carries
  everything the charts consume (metrics, map rows, bar rows, Sankey links).
-/

namespace Migration

/-- Cleaned table row: columns `Origin`, `Destination`, `Value` of
`migration_2020_clean.csv` after `load_data`. -/
structure Record where
  origin : String
  dest : String
  value : ℚ
deriving DecidableEq

/-- Raw row as produced by `pd.read_csv` followed by `pd.to_numeric` on the
`Value` column: `none` models a missing cell (and, for `value`, also a
non-numeric cell coerced to `NaN`). -/
structure RawRow where
  origin : Option String
  dest : Option String
  value : Option ℚ
deriving DecidableEq

/-- Model of Python `str.strip` / pandas `Series.str.strip`: drop whitespace
from both ends of the string. -/
def pyStrip (s : String) : String :=
  ⟨((s.data.dropWhile Char.isWhitespace).reverse.dropWhile Char.isWhitespace).reverse⟩

/-- Model of pandas `Series.astype(str)` on one cell: a present string is kept
and a missing cell (`NaN`) is rendered as the string "nan". -/
def astype_str (c : Option String) : String :=
  match c with
  | none => "nan"
  | some s => s

/-- Model of Python `int(x)` and `Series.astype(int)` on an exact numeric
value: truncation toward zero. -/
def pyInt (q : ℚ) : ℤ := q.num.tdiv q.den

/-- Cleaning stage of `load_data` (lines 41-46): cast the key columns to
string and strip them, keep only rows whose `Value` survived numeric coercion
(`dropna`), and keep only non-negative values. After `astype(str)` the key
columns hold strings, never `NaN`, so `dropna` can only act on `Value`. -/
def clean (rows : List RawRow) : List Record :=
  ((rows.map (fun r =>
      (pyStrip (astype_str r.origin), pyStrip (astype_str r.dest), r.value))).filterMap
    (fun c =>
      match c.2.2 with
      | some v => some (Record.mk c.1 c.2.1 v)
      | none => none)).filter (fun r => decide (0 ≤ r.value))

/-- Model of `load_data` (lines 37-48) including the `pd.read_csv` call:
`none` models a source file that is absent or unparsable, on which
`read_csv` raises and the dashboard dies with no output (the
`DataUnavailable` condition); `some rows` models a parsable file. -/
def load_data (file : Option (List RawRow)) : Except String (List Record) :=
  match file with
  | none => Except.error "DataUnavailable"
  | some rows => Except.ok (clean rows)

/-- Model of the `@st.cache_data` wrapper around `load_data`: a cache hit
returns the stored table untouched, a miss runs the loader and stores a
successful result. -/
def cachedLoad (cache : Option (List Record)) (file : Option (List RawRow)) :
    Except String (List Record) × Option (List Record) :=
  match cache with
  | some t => (Except.ok t, some t)
  | none =>
    match load_data file with
    | Except.ok t => (Except.ok t, some t)
    | Except.error e => (Except.error e, none)

/-- Embeds line 74: the subset of rows whose `Origin` equals the selected
origin. -/
def filtered_df (df : List Record) (selected_origin : String) : List Record :=
  df.filter (fun r => decide (r.origin = selected_origin))

/-- Insertion of one element into a list according to a boolean comparator,
keeping the new element before the first old element it compares `le` to. -/
def insertBy {α : Type} (le : α → α → Bool) (a : α) : List α → List α
  | [] => [a]
  | b :: l => if le a b then a :: b :: l else b :: insertBy le a l

/-- Stable insertion sort by a boolean comparator; models a stable ascending
argsort. -/
def sortBy {α : Type} (le : α → α → Bool) : List α → List α
  | [] => []
  | a :: l => insertBy le a (sortBy le l)

/-- Comparator used by `sort_values("Value")`: ascending by the numeric
measure. -/
def valLe (a b : Record) : Bool := decide (a.value ≤ b.value)

/-- Embeds `sort_values("Value", ascending=True)`. -/
def sort_values_asc (t : List Record) : List Record := sortBy valLe t

/-- Embeds `sort_values("Value", ascending=False)`: pandas computes the
ascending argsort and reverses the indexer (`nargsort`), so the descending
sort is the reversal of the stable ascending sort. -/
def sort_values_desc (t : List Record) : List Record := (sort_values_asc t).reverse

/-- Embeds lines 166-169: descending sort by `Value`, then `head(top_n)`. -/
def top_flows (t : List Record) (top_n : ℕ) : List Record :=
  (sort_values_desc t).take top_n

/-- Embeds lines 122-126: descending sort by `Value`, `head(top_n)`, then the
ascending re-sort used for horizontal-bar rendering. -/
def top_destinations (t : List Record) (top_n : ℕ) : List Record :=
  sortBy valLe ((sort_values_desc t).take top_n)

/-- Embeds line 83: integer-truncated sum of the measure over the filtered
table. -/
def total_abroad (t : List Record) : ℤ := pyInt ((t.map (fun r => r.value)).sum)

/-- Embeds line 84: `Series.nunique` of the `Destination` column (count of
distinct values; the column holds strings, never `NaN`). -/
def num_destinations (t : List Record) : ℕ := ((t.map (fun r => r.dest)).dedup).length

/-- Embeds lines 171-174 as the FlowPairs abstraction: the `top_flows` subset
rendered as (source, target, weight) triples, source being the selected
origin for every link and weight the measure truncated to integer. -/
def flowPairs (selected_origin : String) (t : List Record) (top_n : ℕ) :
    List (String × String × ℤ) :=
  (top_flows t top_n).map (fun r => (selected_origin, r.dest, pyInt r.value))

/-- Codepoint comparison of character lists, as Python compares strings. -/
def charListLe : List Char → List Char → Bool
  | [], _ => true
  | _ :: _, [] => false
  | a :: as, b :: bs =>
    if a.toNat < b.toNat then true
    else if b.toNat < a.toNat then false
    else charListLe as bs

/-- Comparator for Python `sorted` over strings. -/
def strLe (a b : String) : Bool := charListLe a.data b.data

/-- Embeds line 60: `sorted(df["Origin"].unique())`, the key domain offered by
the selection widget. -/
def origin_countries (df : List Record) : List String :=
  sortBy strLe ((df.map (fun r => r.origin)).dedup)

/-- Everything the charts consume for one interaction: the summary metrics
(lines 83-89), the map rows (line 99), the bar rows (line 128) and the Sankey
links (lines 171-174). -/
structure Output where
  total : ℤ
  destinations : ℕ
  map_rows : List Record
  bar_rows : List Record
  sankey : List (String × String × ℤ)
deriving DecidableEq

/-- Embeds the script from line 74 to the end for one interaction: filter by
the selected origin; on an empty subset run `st.error` followed by `st.stop`
(modelled by `Except.error` with the message of line 77, carrying no chart
data), otherwise produce everything the charts consume. -/
def dashboard (df : List Record) (selected_origin : String) (top_n : ℕ) :
    Except String Output :=
  let fd := filtered_df df selected_origin
  if fd = [] then Except.error "No data available for the selected origin."
  else Except.ok (Output.mk (total_abroad fd) (num_destinations fd) fd
    (top_destinations fd top_n) (flowPairs selected_origin fd top_n))

/-- Embeds the whole script: load (line 50), then render one interaction; a
loader failure propagates and nothing is rendered. -/
def script (file : Option (List RawRow)) (selected_origin : String) (top_n : ℕ) :
    Except String Output :=
  match load_data file with
  | Except.error e => Except.error e
  | Except.ok df => dashboard df selected_origin top_n

/-- Concrete table with two rows of equal measure, exercising tie-breaking. -/
def exTie : List Record :=
  [Record.mk "Eritrea" "DestA" 100, Record.mk "Eritrea" "DestB" 100]

/-- Concrete table of the FlowPairs scenario: two destinations valued 100 and
300. -/
def exScenario : List Record :=
  [Record.mk "Eritrea" "DestA" 100, Record.mk "Eritrea" "DestB" 300]

/-- Raw row with a missing `Origin` cell and a valid measure. -/
def naRow : RawRow := RawRow.mk none (some " France ") (some 100)

theorem insertBy_perm {α : Type} (le : α → α → Bool) (a : α) (l : List α) :
    (insertBy le a l).Perm (a :: l) := by
  induction l with
  | nil => exact List.Perm.refl _
  | cons b t ih =>
    cases hc : le a b with
    | false =>
      simp only [insertBy, hc, Bool.false_eq_true, if_false]
      exact (ih.cons b).trans (List.Perm.swap a b t)
    | true =>
      simp only [insertBy, hc, if_true]
      exact List.Perm.refl _

theorem sortBy_perm {α : Type} (le : α → α → Bool) (l : List α) :
    (sortBy le l).Perm l := by
  induction l with
  | nil => exact List.Perm.refl _
  | cons a t ih =>
    exact (insertBy_perm le a (sortBy le t)).trans (ih.cons a)

theorem mem_sortBy {α : Type} (le : α → α → Bool) (a : α) (l : List α) :
    a ∈ sortBy le l ↔ a ∈ l :=
  (sortBy_perm le l).mem_iff

theorem pairwise_insertBy {α : Type} (le : α → α → Bool)
    (htot : ∀ x y, le x y = false → le y x = true)
    (htrans : ∀ x y z, le x y = true → le y z = true → le x z = true)
    (a : α) (l : List α) (h : l.Pairwise (fun x y => le x y = true)) :
    (insertBy le a l).Pairwise (fun x y => le x y = true) := by
  induction l with
  | nil => simp [insertBy]
  | cons b t ih =>
    rw [List.pairwise_cons] at h
    obtain ⟨hb, ht⟩ := h
    cases hc : le a b with
    | false =>
      simp only [insertBy, hc, Bool.false_eq_true, if_false]
      rw [List.pairwise_cons]
      refine ⟨fun y hy => ?_, ih ht⟩
      rcases List.mem_cons.mp ((insertBy_perm le a t).mem_iff.mp hy) with hya | hyt
      · exact hya ▸ htot a b hc
      · exact hb y hyt
    | true =>
      simp only [insertBy, hc, if_true]
      rw [List.pairwise_cons]
      refine ⟨fun y hy => ?_, List.pairwise_cons.mpr ⟨hb, ht⟩⟩
      rcases List.mem_cons.mp hy with hyb | hyt
      · exact hyb ▸ hc
      · exact htrans a b y hc (hb y hyt)

theorem pairwise_sortBy {α : Type} (le : α → α → Bool)
    (htot : ∀ x y, le x y = false → le y x = true)
    (htrans : ∀ x y z, le x y = true → le y z = true → le x z = true)
    (l : List α) : (sortBy le l).Pairwise (fun x y => le x y = true) := by
  induction l with
  | nil => simp [sortBy]
  | cons a t ih => exact pairwise_insertBy le htot htrans a (sortBy le t) ih

theorem filter_insertBy {α : Type} (le : α → α → Bool) (p : α → Bool)
    (hp : ∀ x y, le x y = false → p x = true → p y = false)
    (a : α) (l : List α) :
    (insertBy le a l).filter p = if p a then a :: l.filter p else l.filter p := by
  induction l with
  | nil => cases hpa : p a <;> simp [insertBy, List.filter, hpa]
  | cons b t ih =>
    cases hc : le a b with
    | true =>
      simp only [insertBy, hc, if_true]
      cases hpa : p a <;> simp [List.filter_cons, hpa]
    | false =>
      simp only [insertBy, hc, Bool.false_eq_true, if_false]
      cases hpb : p b with
      | false => simp [List.filter_cons, hpb, ih]
      | true =>
        have hpa : p a = false := by
          cases hpa' : p a with
          | false => rfl
          | true => rw [hp a b hc hpa'] at hpb; exact hpb.symm
        simp [List.filter_cons, hpb, hpa, ih]

theorem filter_sortBy {α : Type} (le : α → α → Bool) (p : α → Bool)
    (hp : ∀ x y, le x y = false → p x = true → p y = false)
    (l : List α) : (sortBy le l).filter p = l.filter p := by
  induction l with
  | nil => rfl
  | cons a t ih =>
    have := filter_insertBy le p hp a (sortBy le t)
    rw [sortBy, this, ih, List.filter_cons]

theorem insertBy_of_forall_false {α : Type} (le : α → α → Bool) (a : α)
    (l : List α) (h : ∀ b ∈ l, le a b = false) :
    insertBy le a l = l ++ [a] := by
  induction l with
  | nil => rfl
  | cons b t ih =>
    have hb : le a b = false := h b (List.mem_cons_self b t)
    simp only [insertBy, hb, Bool.false_eq_true, if_false, List.cons_append]
    rw [ih (fun c hc => h c (List.mem_cons_of_mem b hc))]

theorem sortBy_of_pairwise_false {α : Type} (le : α → α → Bool) (l : List α)
    (h : l.Pairwise (fun x y => le x y = false)) :
    sortBy le l = l.reverse := by
  induction l with
  | nil => rfl
  | cons a t ih =>
    rw [List.pairwise_cons] at h
    obtain ⟨ha, ht⟩ := h
    rw [sortBy, ih ht, insertBy_of_forall_false le a t.reverse
      (fun b hb => ha b (List.mem_reverse.mp hb)), List.reverse_cons]

theorem sum_map_ite {α : Type} [DecidableEq α] (x : α) (c : ℕ) (ks : List α)
    (hk : ks.Nodup) :
    (ks.map (fun k => if x = k then c else 0)).sum = if x ∈ ks then c else 0 := by
  induction ks with
  | nil => simp
  | cons k t ih =>
    rw [List.nodup_cons] at hk
    obtain ⟨hkt, ht⟩ := hk
    rw [List.map_cons, List.sum_cons, ih ht]
    by_cases hx : x = k
    · subst hx
      simp [hkt]
    · simp [hx, List.mem_cons]

theorem valLe_total (x y : Record) (h : valLe x y = false) : valLe y x = true :=
  decide_eq_true (le_of_not_le (of_decide_eq_false h))

theorem valLe_trans (x y z : Record) (hxy : valLe x y = true)
    (hyz : valLe y z = true) : valLe x z = true :=
  decide_eq_true (le_trans (of_decide_eq_true hxy) (of_decide_eq_true hyz))

theorem count_filtered_df (df : List Record) (k : String) (r : Record) :
    List.count r (filtered_df df k) = if r.origin = k then List.count r df else 0 := by
  by_cases hro : r.origin = k
  · rw [if_pos hro]
    exact List.count_filter (decide_eq_true hro)
  · rw [if_neg hro]
    apply List.count_eq_zero.mpr
    intro hmem
    exact hro (of_decide_eq_true (List.mem_filter.mp hmem).2)

theorem nodup_origin_countries (df : List Record) : (origin_countries df).Nodup := by
  rw [origin_countries]
  exact (sortBy_perm strLe ((df.map (fun r => r.origin)).dedup)).symm.nodup
    (List.nodup_dedup _)

theorem mem_origin_countries (df : List Record) (k : String) :
    k ∈ origin_countries df ↔ k ∈ df.map (fun r => r.origin) := by
  rw [origin_countries, mem_sortBy, List.mem_dedup]

/-- C1: the filter keeps exactly the rows whose `Origin` equals the selected
key, with their multiplicities, and concatenating the filtered subsets over
all distinct observed origin values is a permutation of the original table
(a partition). -/
theorem filter_partition (df : List Record) (k : String) :
    (∀ r : Record, List.count r (filtered_df df k) =
      if r.origin = k then List.count r df else 0) ∧
    ((origin_countries df).flatMap (fun key => filtered_df df key)).Perm df := by
  refine ⟨count_filtered_df df k, ?_⟩
  rw [List.perm_iff_count]
  intro r
  rw [List.count_flatMap]
  have hmap : (origin_countries df).map (List.count r ∘ fun key => filtered_df df key) =
      (origin_countries df).map (fun key => if r.origin = key then List.count r df else 0) :=
    List.map_congr_left (fun key _ => count_filtered_df df key r)
  rw [hmap, sum_map_ite r.origin (List.count r df) _ (nodup_origin_countries df)]
  by_cases hin : r.origin ∈ origin_countries df
  · rw [if_pos hin]
  · rw [if_neg hin]
    symm
    apply List.count_eq_zero.mpr
    intro hr
    exact hin ((mem_origin_countries df r.origin).mpr
      (List.mem_map.mpr ⟨r, hr, rfl⟩))

/-- C1 witness: the count characterisation at a concrete table and key. -/
theorem filter_partition_witness :
    List.count (Record.mk "Eritrea" "DestA" 100) (filtered_df exScenario "Eritrea") =
      if (Record.mk "Eritrea" "DestA" 100).origin = "Eritrea" then
        List.count (Record.mk "Eritrea" "DestA" 100) exScenario else 0 :=
  (filter_partition exScenario "Eritrea").1 (Record.mk "Eritrea" "DestA" 100)

/-- C2 counterexample: on a table with two rows of equal measure the
ascending re-sort of the top subset is not the reversal of the descending
top subset. -/
theorem top_n_reverse_fails :
    top_destinations exTie 2 ≠ (top_flows exTie 2).reverse := by decide

/-- C2 (amended): TopN returns at most `n` rows sorted descending by the
measure; the ascending re-sort is a permutation of the reversal of the
descending TopN sequence, and it equals that reversal exactly when the taken
rows carry pairwise-distinct measures. -/
theorem top_n_spec (t : List Record) (n : ℕ) :
    (top_flows t n).length ≤ n ∧
    (top_flows t n).Pairwise (fun a b => b.value ≤ a.value) ∧
    (top_destinations t n).Perm ((top_flows t n).reverse) ∧
    (((top_flows t n).map (fun r => r.value)).Nodup →
      top_destinations t n = (top_flows t n).reverse) := by
  have hasc : (sortBy valLe t).Pairwise (fun a b => a.value ≤ b.value) :=
    (pairwise_sortBy valLe valLe_total valLe_trans t).imp
      (fun h => of_decide_eq_true h)
  have hdesc : (top_flows t n).Pairwise (fun a b => b.value ≤ a.value) := by
    rw [top_flows, sort_values_desc, sort_values_asc]
    exact List.Pairwise.sublist (List.take_sublist n _)
      (List.pairwise_reverse.mpr hasc)
  have hflows : top_flows t n = (sort_values_desc t).take n := rfl
  refine ⟨?_, hdesc, ?_, ?_⟩
  · rw [top_flows]
    exact List.length_take_le n _
  · exact (sortBy_perm valLe _).trans ((top_flows t n).reverse_perm).symm
  · intro hnd
    have hne : (top_flows t n).Pairwise (fun a b => a.value ≠ b.value) :=
      List.pairwise_map.mp hnd
    have hfalse : (top_flows t n).Pairwise (fun a b => valLe a b = false) := by
      refine (hdesc.and hne).imp ?_
      rintro a b ⟨hba, hab⟩
      apply decide_eq_false
      intro hle
      exact hab (le_antisymm hle hba)
    rw [top_destinations, ← hflows]
    exact sortBy_of_pairwise_false valLe _ hfalse

/-- C2 witness: on a table with pairwise-distinct measures the ascending
re-sort equals the reversal of the descending TopN sequence. -/
theorem top_n_spec_witness :
    ((top_flows exScenario 2).map (fun r => r.value)).Nodup ∧
    top_destinations exScenario 2 = (top_flows exScenario 2).reverse :=
  ⟨by decide, (top_n_spec exScenario 2).2.2.2 (by decide)⟩

/-- C3 counterexample: on a table whose two rows carry the same measure, the
descending sort emits them in the opposite of their input order, so
tie-breaking is not stable. -/
theorem sort_desc_not_stable :
    (∀ r ∈ exTie, r.value = 100) ∧
    sort_values_desc exTie = exTie.reverse ∧ exTie.reverse ≠ exTie := by decide

/-- C3 (amended): in the descending sort, rows of any fixed measure appear in
the reversed input order (anti-stable), because pandas implements the
descending single-key sort as the reversal of a stable ascending argsort. -/
theorem sort_desc_reverses_ties (t : List Record) (v : ℚ) :
    (sort_values_desc t).filter (fun r => decide (r.value = v)) =
      (t.filter (fun r => decide (r.value = v))).reverse := by
  rw [sort_values_desc, sort_values_asc, List.filter_reverse]
  congr 1
  apply filter_sortBy
  intro x y hxy hx
  have hxv : x.value = v := of_decide_eq_true hx
  have hlt : y.value < x.value := lt_of_not_le (of_decide_eq_false hxy)
  apply decide_eq_false
  intro hyv
  rw [hyv, ← hxv] at hlt
  exact lt_irrefl _ hlt

/-- C4: the totals metric is the measure summed over all rows and truncated
to an integer, and the destination metric is the number of distinct values in
the `Destination` column. -/
theorem totals_correct (t : List Record) :
    total_abroad t = pyInt ((t.map (fun r => r.value)).sum) ∧
    num_destinations t = ((t.map (fun r => r.dest)).toFinset).card :=
  ⟨rfl, (List.card_toFinset _).symm⟩

/-- C5: FlowPairs is exactly the descending TopN subset rendered as
(source, target, weight) triples with the selected origin as every source
and the integer-truncated measure as weight; on the Eritrea scenario with
values 100 and 300 and n = 2 it yields the two triples in descending order. -/
theorem flowPairs_spec (k : String) (t : List Record) (n : ℕ) :
    flowPairs k t n = (top_flows t n).map (fun r => (k, r.dest, pyInt r.value)) ∧
    (flowPairs k t n).map (fun p => p.1) = List.replicate (top_flows t n).length k ∧
    (flowPairs k t n).map (fun p => p.2.1) = (top_flows t n).map (fun r => r.dest) ∧
    flowPairs "Eritrea" exScenario 2 =
      [("Eritrea", "DestB", 300), ("Eritrea", "DestA", 100)] := by
  refine ⟨rfl, ?_, ?_, by decide⟩
  · rw [flowPairs, List.map_map]
    exact List.map_const' _ k
  · rw [flowPairs, List.map_map]
    rfl

/-- C6: the loader retains a row whose `Origin` cell is missing, giving it
the literal key "nan": `astype(str)` stringifies the missing cell before
`dropna` can see it, so the intended drop of rows with a missing key never
happens. -/
theorem load_keeps_missing_origin :
    naRow.origin = none ∧ clean [naRow] = [Record.mk "nan" "France" 100] := by
  exact ⟨rfl, by decide⟩

/-- C7: when the filtered subset is empty the program emits the explanatory
message of line 77 and stops, producing none of the chart outputs. -/
theorem empty_selection_stops (df : List Record) (k : String) (n : ℕ)
    (h : filtered_df df k = []) :
    dashboard df k n = Except.error "No data available for the selected origin." := by
  unfold dashboard
  simp only [h, if_pos]

/-- C7 witness: a key matching no row of a concrete table triggers the
message. -/
theorem empty_selection_stops_witness :
    dashboard [Record.mk "Eritrea" "France" 100] "Sweden" 10 =
      Except.error "No data available for the selected origin." :=
  empty_selection_stops _ _ _ (by decide)

/-- C8: the loader fails with `DataUnavailable` exactly on an absent or
unparsable source file, in which case the script produces no output at all,
and on a parsable file it returns the cleaned table. -/
theorem load_data_unavailable (file : Option (List RawRow)) (k : String)
    (n : ℕ) (rows : List RawRow) :
    (load_data file = Except.error "DataUnavailable" ↔ file = none) ∧
    script none k n = Except.error "DataUnavailable" ∧
    load_data (some rows) = Except.ok (clean rows) := by
  refine ⟨?_, rfl, rfl⟩
  cases file with
  | none => simp [load_data]
  | some rs => simp [load_data]

/-- C9: loading the same file contents twice through the cache yields
row-identical tables, both equal to the pure loader output. -/
theorem load_data_deterministic (file : Option (List RawRow)) :
    (cachedLoad (cachedLoad none file).2 file).1 = (cachedLoad none file).1 ∧
    (cachedLoad none file).1 = load_data file := by
  cases file with
  | none => simp [cachedLoad, load_data]
  | some rows => simp [cachedLoad, load_data]

/-- C10: a key drawn from the widget's observed key domain filters to a
non-empty subset, so the empty-selection abort branch cannot be taken. -/
theorem observed_origin_nonempty (df : List Record) (k : String) (n : ℕ)
    (h : k ∈ origin_countries df) :
    filtered_df df k ≠ [] ∧ ∃ o : Output, dashboard df k n = Except.ok o := by
  obtain ⟨r, hr, hro⟩ := List.mem_map.mp ((mem_origin_countries df k).mp h)
  have hrf : r ∈ filtered_df df k :=
    List.mem_filter.mpr ⟨hr, decide_eq_true hro⟩
  have hne : filtered_df df k ≠ [] := List.ne_nil_of_mem hrf
  refine ⟨hne, Output.mk (total_abroad (filtered_df df k))
    (num_destinations (filtered_df df k)) (filtered_df df k)
    (top_destinations (filtered_df df k) n) (flowPairs k (filtered_df df k) n), ?_⟩
  unfold dashboard
  simp only [if_neg hne]

/-- C10 witness: the concrete key "Eritrea" is in the observed domain of the
scenario table and yields a rendered output. -/
theorem observed_origin_nonempty_witness :
    filtered_df exScenario "Eritrea" ≠ [] ∧
    ∃ o : Output, dashboard exScenario "Eritrea" 10 = Except.ok o :=
  observed_origin_nonempty exScenario "Eritrea" 10 (by decide)

end Migration
